import Mathlib

/-!
Verification of the ds-inspections-email-worker repository.

The development shallowly embeds the pure routing core of the worker:
the site-name parser, the SharePoint path resolver, the ComplianceGo
email extractor (its regular-expression matchers are hand-compiled to
deterministic scanners over character lists), the retry/backoff logic
of the PDF-render step, the `processInspection` pipeline of the worker,
the `main` flow of the manual-upload script.  JavaScript strings are
modelled as `List Char`; `Date` values as a record of the components
observed by the code (`getFullYear`/`getMonth`/`getDate` plus the time
of day), with `new Date(y, m, d, h, min, s)` normalisation implemented
by standard civil-calendar arithmetic.  External capabilities (browser
rendering, SharePoint, clock) are passed in as explicit parameters, and
the pipeline additionally records which capabilities it invoked.

Modelling conventions (documented divergences from full JS semantics):
`toUpperCase`/`toLowerCase` are modelled on the ASCII range only, and
`trim`/`\s` use the common JS whitespace set (space, tab, CR, LF, VT,
FF, NBSP, FEFF).  None of the verified claims depends on characters
outside this range.
-/

namespace DSIE

/-- ASCII model of `String.prototype.toLowerCase` on one character. -/
def jsCharToLower (c : Char) : Char :=
  if 'A' ≤ c ∧ c ≤ 'Z' then Char.ofNat (c.toNat + 32) else c

/-- ASCII model of `String.prototype.toUpperCase` on one character. -/
def jsCharToUpper (c : Char) : Char :=
  if 'a' ≤ c ∧ c ≤ 'z' then Char.ofNat (c.toNat - 32) else c

/-- Model of `String.prototype.toLowerCase` (ASCII model). -/
def jsToLower (s : List Char) : List Char := s.map jsCharToLower

/-- Model of `String.prototype.toUpperCase` (ASCII model). -/
def jsToUpper (s : List Char) : List Char := s.map jsCharToUpper

/-- The JS whitespace class used by `trim` and by the regex class `\s`
(space, tab, LF, VT, FF, CR, NBSP, BOM). -/
def isJsWhitespace (c : Char) : Bool :=
  c = ' ' ∨ c = '\t' ∨ c = '\n' ∨ c = '\x0b' ∨ c = '\x0c' ∨ c = '\r' ∨
  c = ' ' ∨ c = '﻿'

/-- Model of `String.prototype.trim`: strip leading and trailing whitespace. -/
def jsTrim (s : List Char) : List Char :=
  ((s.dropWhile isJsWhitespace).reverse.dropWhile isJsWhitespace).reverse

/-- Boolean test that `pat` occurs at the very start of `s`
(used to compile the split/matcher loops). -/
def startsWith : List Char → List Char → Bool
  | [], _ => true
  | _ :: _, [] => false
  | p :: ps, c :: cs => p = c && startsWith ps cs

/-- Model of `String.prototype.includes`: substring containment, scanning left to
right. -/
def jsIncludes (hay sub : List Char) : Bool :=
  startsWith sub hay ||
    match hay with
    | [] => false
    | _ :: t => jsIncludes t sub

/-- Fuel-indexed worker for `String.prototype.split` with a (nonempty)
string separator: cut at each leftmost, non-overlapping occurrence.
`fuel ≥ s.length` makes the fuel irrelevant. -/
def jsSplitAux (sep : List Char) : ℕ → List Char → List (List Char)
  | _, [] => [[]]
  | 0, s => [s]
  | fuel + 1, c :: cs =>
    if startsWith sep (c :: cs) then
      [] :: jsSplitAux sep fuel ((c :: cs).drop sep.length)
    else
      match jsSplitAux sep fuel cs with
      | [] => [[c]]
      | p :: ps => (c :: p) :: ps

/-- Model of `String.prototype.split` with a nonempty string separator. -/
def jsSplit (sep s : List Char) : List (List Char) :=
  jsSplitAux sep s.length s

/-- Model of `String.prototype.charAt(i)`: a one-character string, or the empty
string when out of range. -/
def jsCharAt (s : List Char) (i : ℕ) : List Char :=
  match s.drop i with
  | [] => []
  | c :: _ => [c]

/-- JS `<` on strings: lexicographic comparison by code point. -/
def jsStrLt : List Char → List Char → Bool
  | [], [] => false
  | [], _ :: _ => true
  | _ :: _, [] => false
  | a :: as, b :: bs => if a < b then true else if b < a then false else jsStrLt as bs

/-- Decimal digits of a natural number (fuel-indexed, structural). -/
def natToCharsAux : ℕ → ℕ → List Char → List Char
  | 0, _, acc => acc
  | fuel + 1, n, acc =>
    if n < 10 then Char.ofNat (48 + n) :: acc
    else natToCharsAux fuel (n / 10) (Char.ofNat (48 + n % 10) :: acc)

/-- Model of `String(n)` for a natural number. -/
def natToChars (n : ℕ) : List Char := natToCharsAux (n + 1) n []

/-- Model of `String(n)` for a JS number holding an integer. -/
def intToChars (n : ℤ) : List Char :=
  if n < 0 then '-' :: natToChars (-n).toNat else natToChars n.toNat

/-- Model of `String.prototype.padStart(2, "0")`. -/
def padTwo (s : List Char) : List Char :=
  List.replicate (2 - s.length) '0' ++ s

/-- Model of `String.prototype.slice(-2)`: the last two characters (or the whole
string when it is shorter). -/
def lastTwo (s : List Char) : List Char := s.drop (s.length - 2)

/-- The component view of a JS `Date` observed by this code base:
`getFullYear`, `getMonth` (0-based), `getDate`, plus hours/minutes. -/
structure JsDate where
  year : ℤ
  month : ℤ
  day : ℤ
  hour : ℤ
  minute : ℤ
deriving DecidableEq

/-- Day count since 1970-01-01 of a civil date (`m` is 1-based);
the Howard Hinnant `days_from_civil` algorithm. -/
def daysFromCivil (y m d : ℤ) : ℤ :=
  let y2 := if m ≤ 2 then y - 1 else y
  let era := y2.fdiv 400
  let yoe := y2 - era * 400
  let mAdj := if 2 < m then m - 3 else m + 9
  let doy := (153 * mAdj + 2).fdiv 5 + d - 1
  let doe := yoe * 365 + yoe.fdiv 4 - yoe.fdiv 100 + doy
  era * 146097 + doe - 719468

/-- Civil date (year, 1-based month, day) of a day count since
1970-01-01; the Howard Hinnant `civil_from_days` algorithm. -/
def civilFromDays (z0 : ℤ) : ℤ × ℤ × ℤ :=
  let z := z0 + 719468
  let era := z.fdiv 146097
  let doe := z - era * 146097
  let yoe := (doe - doe.fdiv 1460 + doe.fdiv 36524 - doe.fdiv 146096).fdiv 365
  let y := yoe + era * 400
  let doy := doe - (365 * yoe + yoe.fdiv 4 - yoe.fdiv 100)
  let mp := (5 * doy + 2).fdiv 153
  let d := doy - (153 * mp + 2).fdiv 5 + 1
  let m := if mp < 10 then mp + 3 else mp - 9
  (if m ≤ 2 then y + 1 else y, m, d)

/-- Model of `new Date(year, month, day, hour, minute, 0)`: JS normalises
out-of-range month/day components by civil-calendar arithmetic. -/
def jsMkDate (y m d hour minute : ℤ) : JsDate :=
  let ym := y * 12 + m
  let yN := ym.fdiv 12
  let mN := ym - yN * 12
  let days := daysFromCivil yN (mN + 1) 1 + (d - 1)
  let c := civilFromDays days
  ⟨c.1, c.2.1 - 1, c.2.2, hour, minute⟩

/-! ### src/parser.ts — regex matchers

Each top-level regex of `parser.ts` is hand-compiled to a deterministic
matcher that attempts the pattern at one position; `scanFirst` then
scans the input left to right, which is exactly the leftmost-match
semantics of `String.prototype.match` with a non-global regex.  The
backtracking behaviour of each pattern was analysed by hand; comments
note why each compiled form is equivalent. -/

/-- Try a matcher at every suffix, left to right: leftmost match. -/
def scanFirst {α : Type} (f : List Char → Option α) : List Char → Option α
  | [] => f []
  | s@(_ :: rest) =>
    match f s with
    | some r => some r
    | none => scanFirst f rest

/-- Match a literal case-insensitively at the start; return the rest. -/
def tryLitCi : List Char → List Char → Option (List Char)
  | [], s => some s
  | _ :: _, [] => none
  | p :: ps, c :: cs => if jsCharToLower p = jsCharToLower c then tryLitCi ps cs else none

/-- Matcher for `SITE_NAME_HTML_REGEX = /Site\/Location Name:<\/span>\s*<span[^>]*>([^<]+)<\/span>/i`
attempted at one position.  `\s*` before `<` and the bounded character
classes make the pattern deterministic: each starred class must consume
its maximal run. -/
def trySiteNameHtml (s : List Char) : Option (List Char) :=
  match tryLitCi "Site/Location Name:</span>".data s with
  | none => none
  | some r1 =>
    let r2 := r1.dropWhile isJsWhitespace
    match tryLitCi "<span".data r2 with
    | none => none
    | some r3 =>
      let r4 := r3.dropWhile (fun c => ¬ c = '>')
      match r4 with
      | '>' :: r5 =>
        let cap := r5.takeWhile (fun c => ¬ c = '<')
        if cap.isEmpty then none
        else
          match tryLitCi "</span>".data (r5.drop cap.length) with
          | some _ => some cap
          | none => none
      | _ => none

/-- Is the character one the class `[^\r\n]` rejects? -/
def isCrLf (c : Char) : Bool := c = '\r' ∨ c = '\n'

/-- The `\s*([^\r\n]+)` suffix of `SITE_NAME_TEXT_REGEX`: greedy `\s*`
backtracks from its maximal run `k` until the next character exists and
is not CR/LF, then `[^\r\n]+` consumes greedily to the end of line. -/
def wsBacktrackLine : ℕ → List Char → Option (List Char)
  | k, r =>
    match r.drop k with
    | c :: _ =>
      if ¬ isCrLf c then some ((r.drop k).takeWhile (fun x => ¬ isCrLf x))
      else match k with
        | 0 => none
        | k' + 1 => wsBacktrackLine k' r
    | [] =>
      match k with
      | 0 => none
      | k' + 1 => wsBacktrackLine k' r

/-- Matcher for `SITE_NAME_TEXT_REGEX = /Site\/Location Name:\s*([^\r\n]+)/i`
attempted at one position. -/
def trySiteNameText (s : List Char) : Option (List Char) :=
  match tryLitCi "Site/Location Name:".data s with
  | none => none
  | some r1 => wsBacktrackLine (r1.takeWhile isJsWhitespace).length r1

/-- Matcher for `SITE_ADDRESS_REGEX = /Site\/Location Address:<\/span>\s*<a[^>]*>(?:<span[^>]*>)?([^<]+)/i`
attempted at one position.  If the optional `<span[^>]*>` group starts
to match (`<span` present) but the whole arm fails, skipping the group
cannot succeed either, because `[^<]+` would then start at `<`; so the
compiled form commits to the arm. -/
def tryAddress (s : List Char) : Option (List Char) :=
  match tryLitCi "Site/Location Address:</span>".data s with
  | none => none
  | some r1 =>
    let r2 := r1.dropWhile isJsWhitespace
    match tryLitCi "<a".data r2 with
    | none => none
    | some r3 =>
      let r4 := r3.dropWhile (fun c => ¬ c = '>')
      match r4 with
      | '>' :: r5 =>
        match tryLitCi "<span".data r5 with
        | some r6 =>
          let r7 := r6.dropWhile (fun c => ¬ c = '>')
          match r7 with
          | '>' :: r8 =>
            let cap := r8.takeWhile (fun c => ¬ c = '<')
            if cap.isEmpty then none else some cap
          | _ => none
        | none =>
          let cap := r5.takeWhile (fun c => ¬ c = '<')
          if cap.isEmpty then none else some cap
      | _ => none

/-- Does `s` end with `pat`, case-insensitively? -/
def endsWithCi (pat s : List Char) : Bool :=
  startsWith (jsToLower pat.reverse) (jsToLower s.reverse)

/-- The vendor content-domain prefix of `REPORT_URL_REGEX`. -/
def reportUrlDomain : List Char := "https://cdn3.compliancego.com/".data

/-- Matcher for `REPORT_URL_REGEX = /href="(https:\/\/cdn3\.compliancego\.com\/[^"]+\.html)"/i`
attempted at one position.  `[^"]+\.html"` forces the whole run up to
the next quote to end in `.html` and have a nonempty stem; the capture
is the original text of the domain plus that run. -/
def tryReportUrl (s : List Char) : Option (List Char) :=
  match tryLitCi "href=\"".data s with
  | none => none
  | some r1 =>
    match tryLitCi reportUrlDomain r1 with
    | none => none
    | some r2 =>
      let run := r2.takeWhile (fun c => ¬ c = '"')
      match r2.drop run.length with
      | '"' :: _ =>
        if 6 ≤ run.length ∧ endsWithCi ".html".data run then
          some (r1.take reportUrlDomain.length ++ run)
        else none
      | _ => none

/-- ASCII digit test, the regex class `\d`. -/
def isDigitCh (c : Char) : Bool := '0' ≤ c ∧ c ≤ '9'

/-- ASCII letter test, the regex class `[A-Za-z]`. -/
def isAlphaCh (c : Char) : Bool := ('A' ≤ c ∧ c ≤ 'Z') ∨ ('a' ≤ c ∧ c ≤ 'z')

/-- Numeric value of a list of decimal digit characters
(`Number.parseInt(..., 10)` on a digit string). -/
def digitsVal (ds : List Char) : ℕ :=
  ds.foldl (fun acc c => acc * 10 + (c.toNat - 48)) 0

/-- Finish `DATE_FROM_URL_REGEX` after the day digits `ds`:
`[A-Za-z]{3}` then `\d{2}` then `-`. -/
def tryDateTail (ds : List Char) (rest : List Char) : Option (ℕ × List Char × ℕ) :=
  match rest with
  | a :: b :: c :: y1 :: y2 :: '-' :: _ =>
    if isAlphaCh a ∧ isAlphaCh b ∧ isAlphaCh c ∧ isDigitCh y1 ∧ isDigitCh y2 then
      some (digitsVal ds, [a, b, c], digitsVal [y1, y2])
    else none
  | _ => none

/-- Matcher for `DATE_FROM_URL_REGEX`, the pattern `(\d{1,2})([A-Za-z]{3})(\d{2})-`,
attempted at one position: greedy `\d{1,2}` tries two digits first, then
one. -/
def tryDateToken (s : List Char) : Option (ℕ × List Char × ℕ) :=
  match s with
  | d1 :: rest =>
    if isDigitCh d1 then
      match rest with
      | d2 :: rest2 =>
        if isDigitCh d2 then
          match tryDateTail [d1, d2] rest2 with
          | some r => some r
          | none => tryDateTail [d1] rest
        else tryDateTail [d1] rest
      | [] => none
    else none
  | [] => none

/-! ### src/parser.ts — exported functions -/

/-- Embedding of `InspectionData` (src/parser.ts). -/
structure InspectionData where
  siteName : List Char
  siteAddress : List Char
  reportUrl : List Char
  inspectionDate : JsDate
deriving DecidableEq

/-- Embedding of `ALLOWED_SENDERS` (src/parser.ts). -/
def ALLOWED_SENDERS : List (List Char) :=
  ["chi@desertservices.net".data, "compliancego.com".data]

/-- Embedding of `shouldProcessEmail` (src/parser.ts): accept mail whose lower-cased
`from` contains the vendor domain or an allowed sender. -/
def shouldProcessEmail (from_ : List Char) : Bool :=
  let fromLower := jsToLower from_
  if jsIncludes fromLower "compliancego.com".data then true
  else ALLOWED_SENDERS.any fun sender => jsIncludes fromLower (jsToLower sender)

/-- Is an optional JS string falsy (`undefined` or `""`)? -/
def strFalsy : Option (List Char) → Bool
  | none => true
  | some s => s.isEmpty

/-- The site-name extraction of `parseComplianceGoEmail`: the HTML
pattern against `content = html || text || ""` first, then the text
pattern against ``allContent = `${html}\n${text ?? ""}` ``, each capture
trimmed. -/
def siteNameOf (html : List Char) (text : Option (List Char)) : Option (List Char) :=
  let content := if html.isEmpty then (text.getD []) else html
  let allContent := html ++ '\n' :: text.getD []
  let s0 := (scanFirst trySiteNameHtml content).map jsTrim
  if strFalsy s0 then (scanFirst trySiteNameText allContent).map jsTrim else s0

/-- The address extraction of `parseComplianceGoEmail` (optional field,
defaults to the empty string). -/
def siteAddressOf (html : List Char) (text : Option (List Char)) : List Char :=
  let content := if html.isEmpty then (text.getD []) else html
  ((scanFirst tryAddress content).map jsTrim).getD []

/-- The report-URL extraction of `parseComplianceGoEmail`, searched in
the combined corpus. -/
def reportUrlOf (html : List Char) (text : Option (List Char)) : Option (List Char) :=
  scanFirst tryReportUrl (html ++ '\n' :: text.getD [])

/-- The case-sensitive 12-entry month table of `parseComplianceGoEmail`. -/
def monthMap (m : List Char) : Option ℤ :=
  if m = "Jan".data then some 0 else if m = "Feb".data then some 1
  else if m = "Mar".data then some 2 else if m = "Apr".data then some 3
  else if m = "May".data then some 4 else if m = "Jun".data then some 5
  else if m = "Jul".data then some 6 else if m = "Aug".data then some 7
  else if m = "Sep".data then some 8 else if m = "Oct".data then some 9
  else if m = "Nov".data then some 10 else if m = "Dec".data then some 11
  else none

/-- The inspection-date derivation of `parseComplianceGoEmail`: parse the
`<day><Mon><yy>-` token out of the report URL; on a match build
`new Date(2000+yy, monthMap[mon] ?? 0, day, 12, 0, 0)`, otherwise fall
back to `new Date()` (the extraction-time clock, passed in as `now`). -/
def inspectionDateOf (reportUrl : List Char) (now : JsDate) : JsDate :=
  match scanFirst tryDateToken reportUrl with
  | some (day, monthStr, yy) =>
    jsMkDate (2000 + (yy : ℤ)) ((monthMap monthStr).getD 0) (day : ℤ) 12 0
  | none => now

/-- Embedding of `parseComplianceGoEmail` (src/parser.ts): site name required, address
optional, report URL required, date derived from the URL. -/
def parseComplianceGoEmail (html : List Char) (text : Option (List Char))
    (now : JsDate) : Option InspectionData :=
  match siteNameOf html text with
  | none => none
  | some s =>
    if s.isEmpty then none
    else
      match reportUrlOf html text with
      | none => none
      | some url =>
        some ⟨s, siteAddressOf html text, url, inspectionDateOf url now⟩

/-- Embedding of `SiteIdentity`: the result type of `parseSiteName`. -/
structure SiteIdentity where
  contractor : List Char
  project : List Char
deriving DecidableEq

/-- Embedding of `parseSiteName` (src/parser.ts): split on `" - "` first, falling back
to a bare `"-"`; contractor is the first segment trimmed and upper-cased,
project the remaining segments rejoined and trimmed. -/
def parseSiteName (siteName : List Char) : Option SiteIdentity :=
  let parts := jsSplit " - ".data siteName
  if 2 ≤ parts.length then
    some ⟨jsToUpper (jsTrim parts.headI), jsTrim (List.intercalate " - ".data parts.tail)⟩
  else
    let parts2 := jsSplit "-".data siteName
    if 2 ≤ parts2.length then
      some ⟨jsToUpper (jsTrim parts2.headI), jsTrim (List.intercalate "-".data parts2.tail)⟩
    else none

/-- The pre-trim segments `parseSiteName` works from: the first segment
and the rejoined remainder of whichever split rule fires (analysis
helper for relating the output fields to the input). -/
def parseSegments (siteName : List Char) : Option (List Char × List Char) :=
  let parts := jsSplit " - ".data siteName
  if 2 ≤ parts.length then
    some (parts.headI, List.intercalate " - ".data parts.tail)
  else
    let parts2 := jsSplit "-".data siteName
    if 2 ≤ parts2.length then
      some (parts2.headI, List.intercalate "-".data parts2.tail)
    else none

/-- Embedding of `getProjectsFolder` (src/parser.ts): bucket by the upper-cased first
character, using JS string comparison on `charAt(0)` (which is the empty
string for empty input). -/
def getProjectsFolder (contractor : List Char) : List Char :=
  let firstChar := jsToUpper (jsCharAt contractor 0)
  let isNumberOrAtoM :=
    (!jsStrLt firstChar "0".data && !jsStrLt "9".data firstChar) ||
    (!jsStrLt firstChar "A".data && !jsStrLt "M".data firstChar)
  if isNumberOrAtoM then "PROJECTS A-M".data else "PROJECTS N-Z".data

/-- Embedding of `siteNameToSharePointPath` (src/parser.ts).  The optional `year`
argument defaults to `new Date().getFullYear()`, passed in as
`currentYear`. -/
def siteNameToSharePointPath (siteName : List Char) (year : Option ℤ)
    (currentYear : ℤ) : Option (List Char) :=
  match parseSiteName siteName with
  | none => none
  | some p =>
    let folder := getProjectsFolder p.contractor
    let yearFolder := year.getD currentYear
    some ("SWPPP/INSPECTIONS/PROJECTS/".data ++ folder ++ "/".data ++
      p.contractor ++ "/".data ++ p.project ++ "/".data ++ intToChars yearFolder)

/-- Embedding of `formatFilename` (src/parser.ts): `MM.DD.YY.pdf`, zero-padded, year
truncated to its last two digits. -/
def formatFilename (date : JsDate) : List Char :=
  let mm := padTwo (intToChars (date.month + 1))
  let dd := padTwo (intToChars date.day)
  let yy := lastTwo (intToChars date.year)
  mm ++ ".".data ++ dd ++ ".".data ++ yy ++ ".pdf".data

/-! ### src/index.ts — retry/backoff and the processing pipeline

The external capabilities of the worker are passed in explicitly: the
browser-rendering service as an oracle giving the outcome of each
attempt, and the SharePoint upload result as a value.  The pipeline model also
returns the list of capabilities it invoked, so that claims about
"render/upload is (not) called" can be stated. -/

/-- `MAX_PDF_RETRIES` (src/index.ts). -/
def MAX_PDF_RETRIES : ℕ := 5

/-- Embedding of `isRateLimitError` (src/index.ts): classify an error by
its message text. -/
def isRateLimitError (message : List Char) : Bool :=
  let msg := jsToLower message
  jsIncludes msg "429".data || jsIncludes msg "503".data ||
    jsIncludes msg "rate limit".data || jsIncludes msg "no browser available".data

/-- Embedding of `getBackoffDelay` (src/index.ts): exponential backoff
(base 10s for rate-limit errors, 3s otherwise) with ±20% jitter, clamped
to 60s.  `rand` stands for the `Math.random()` draw in `[0, 1)`;
numbers are modelled as rationals. -/
def getBackoffDelay (attempt : ℕ) (isRateLimit : Bool) (rand : ℚ) : ℚ :=
  let baseDelay : ℚ := if isRateLimit then 10000 else 3000
  let maxDelay : ℚ := 60000
  let exponentialDelay : ℚ := baseDelay * 2 ^ (attempt - 1)
  let jitter : ℚ := exponentialDelay * (2 / 10) * (rand * 2 - 1)
  min (exponentialDelay + jitter) maxDelay

/-- PDF bytes (uninterpreted payload of the render capability). -/
abbrev PdfBytes : Type := List ℕ

/-- The retry loop of `generatePdf` (src/index.ts): `remaining` counts
the attempts left out of `MAX_PDF_RETRIES`, `attempt` is the 1-based
attempt number, `lastError` the last failure seen.  Returns the final
outcome and the number of attempts made. -/
def generatePdfGo (oracle : ℕ → Except (List Char) PdfBytes) :
    ℕ → ℕ → Option (List Char) → Except (List Char) PdfBytes × ℕ
  | 0, attempt, lastError =>
    (Except.error (lastError.getD "PDF generation failed after retries".data), attempt - 1)
  | remaining + 1, attempt, _ =>
    match oracle attempt with
    | Except.ok pdf => (Except.ok pdf, attempt)
    | Except.error e => generatePdfGo oracle remaining (attempt + 1) (some e)

/-- Embedding of `generatePdf` (src/index.ts): up to `MAX_PDF_RETRIES`
attempts; after exhaustion the last error is rethrown. -/
def generatePdf (oracle : ℕ → Except (List Char) PdfBytes) :
    Except (List Char) PdfBytes × ℕ :=
  generatePdfGo oracle MAX_PDF_RETRIES 1 none

/-- Embedding of `SharePointResult` (src/index.ts):
`uploadToSharePoint` never throws, it returns this record. -/
structure SharePointResult where
  success : Bool
  webUrl : Option (List Char)
  error : Option (List Char)
deriving DecidableEq

/-- The external world of the worker for one `processInspection` run:
the render oracle, the upload outcome, and the current listing of the
destination folder (which the worker never reads — it is carried so that claims
about pre-existing files can be stated against it). -/
structure PipelineEnv where
  render : ℕ → Except (List Char) PdfBytes
  upload : SharePointResult
  listing : List (List Char)

/-- Embedding of `NotificationData` (src/index.ts): the payload of the
success/failure notification email. -/
structure NotificationData where
  success : Bool
  siteName : List Char
  contractor : List Char
  project : List Char
  fileName : List Char
  folderPath : List Char
  sharePointUrl : Option (List Char)
  error : Option (List Char)
deriving DecidableEq

/-- External capabilities a pipeline run can invoke. -/
inductive CapEvent where
  | render
  | upload
deriving DecidableEq

/-- Embedding of `processInspection` (src/index.ts): resolve the folder
path and filename, generate the PDF (with retries), upload, and build
the notification.  Returns the invoked-capability trace together with
the notification payload. -/
def processInspection (env : PipelineEnv) (inspection : InspectionData) :
    List CapEvent × NotificationData :=
  let year := inspection.inspectionDate.year
  let folderPath := siteNameToSharePointPath inspection.siteName (some year) year
  let fileName := formatFilename inspection.inspectionDate
  let parsed := parseSiteName inspection.siteName
  let contractor := (parsed.map SiteIdentity.contractor).getD "UNKNOWN".data
  let project := (parsed.map SiteIdentity.project).getD "UNKNOWN".data
  match folderPath with
  | none =>
    ([], ⟨false, inspection.siteName, contractor, project, fileName, "N/A".data,
      none, some "Could not determine SharePoint folder path".data⟩)
  | some fp =>
    match generatePdf env.render with
    | (Except.error e, n) =>
      (List.replicate n CapEvent.render,
        ⟨false, inspection.siteName, contractor, project, fileName, fp, none, some e⟩)
    | (Except.ok _, n) =>
      let events := List.replicate n CapEvent.render ++ [CapEvent.upload]
      if env.upload.success then
        (events, ⟨true, inspection.siteName, contractor, project, fileName, fp,
          env.upload.webUrl, none⟩)
      else
        (events, ⟨false, inspection.siteName, contractor, project, fileName, fp,
          none, env.upload.error⟩)

/-! ### scripts/manual-upload.ts — the manual upload flow -/

/-- Terminal outcomes of `main` in the manual-upload script. -/
inductive ScriptOutcome where
  | alreadyExists
  | uploaded
  | errored
deriving DecidableEq

/-- Embedding of `main` from the manual-upload script: compute the
current-date filename and the destination path, list the destination folder (a
failed listing is swallowed and treated as "does not exist"), exit
successfully without rendering or uploading when the filename is
already present, and otherwise render then upload (errors propagate to
the catch-all of the script). -/
def manualUploadMain (contractor project : List Char) (now : JsDate)
    (listing : Except Unit (List (List Char)))
    (render : Except (List Char) PdfBytes)
    (upload : Except (List Char) (List Char)) : List CapEvent × ScriptOutcome :=
  let year := now.year
  let mm := padTwo (intToChars (now.month + 1))
  let dd := padTwo (intToChars now.day)
  let yy := lastTwo (intToChars now.year)
  let fileName := mm ++ ".".data ++ dd ++ ".".data ++ yy ++ ".pdf".data
  let folder := getProjectsFolder contractor
  let _folderPath := "SWPPP/INSPECTIONS/PROJECTS/".data ++ folder ++ "/".data ++
    contractor ++ "/".data ++ project ++ "/".data ++ intToChars year
  let fileExists := match listing with
    | Except.ok files => files.contains fileName
    | Except.error _ => false
  if fileExists then ([], ScriptOutcome.alreadyExists)
  else
    match render with
    | Except.error _ => ([CapEvent.render], ScriptOutcome.errored)
    | Except.ok _ =>
      match upload with
      | Except.error _ => ([CapEvent.render, CapEvent.upload], ScriptOutcome.errored)
      | Except.ok _ => ([CapEvent.render, CapEvent.upload], ScriptOutcome.uploaded)

/-! ### Helper lemmas -/

theorem startsWith_iff (p s : List Char) : startsWith p s = true ↔ p <+: s := by
  induction p generalizing s with
  | nil => simp [startsWith]
  | cons a as ih =>
    cases s with
    | nil => simp [startsWith]
    | cons b bs =>
      simp [startsWith, List.cons_prefix_cons, ih]

theorem jsSplitAux_ne_nil (sep : List Char) :
    ∀ (fuel : ℕ) (s : List Char), jsSplitAux sep fuel s ≠ [] := by
  intro fuel
  induction fuel with
  | zero => intro s; cases s <;> simp [jsSplitAux]
  | succ f _ =>
    intro s
    cases s with
    | nil => simp [jsSplitAux]
    | cons c cs =>
      simp only [jsSplitAux]
      split
      · simp
      · split <;> simp

theorem jsSplitAux_length_two (sep : List Char) (hsep : sep ≠ []) :
    ∀ (fuel : ℕ) (s : List Char), s.length ≤ fuel → sep <:+: s →
      2 ≤ (jsSplitAux sep fuel s).length := by
  intro fuel
  induction fuel with
  | zero =>
    intro s hlen hinf
    have hs : s = [] := List.eq_nil_of_length_eq_zero (Nat.le_zero.mp hlen)
    subst hs
    rw [List.infix_nil] at hinf
    exact absurd hinf hsep
  | succ f ih =>
    intro s hlen hinf
    cases s with
    | nil =>
      rw [List.infix_nil] at hinf
      exact absurd hinf hsep
    | cons c cs =>
      simp only [jsSplitAux]
      by_cases hpre : startsWith sep (c :: cs) = true
      · rw [if_pos hpre]
        have hne := jsSplitAux_ne_nil sep f ((c :: cs).drop sep.length)
        simp only [List.length_cons]
        have : 1 ≤ (jsSplitAux sep f ((c :: cs).drop sep.length)).length :=
          List.length_pos.mpr hne
        omega
      · rw [if_neg hpre]
        have hinf2 : sep <:+: cs := by
          rcases List.infix_cons_iff.mp hinf with h | h
          · exact absurd ((startsWith_iff sep (c :: cs)).mpr h) hpre
          · exact h
        have hlen2 : cs.length ≤ f := by
          simpa using Nat.le_of_succ_le_succ (by simpa using hlen)
        have h2 := ih cs hlen2 hinf2
        rcases hsplit : jsSplitAux sep f cs with _ | ⟨p, ps⟩
        · exact absurd hsplit (jsSplitAux_ne_nil sep f cs)
        · rw [hsplit] at h2
          simpa using h2

theorem jsSplit_length_two (sep s : List Char) (hsep : sep ≠ [])
    (hinf : sep <:+: s) : 2 ≤ (jsSplit sep s).length :=
  jsSplitAux_length_two sep hsep s.length s le_rfl hinf

theorem jsStrLt_single (a b : Char) : jsStrLt [a] [b] = decide (a < b) := by
  by_cases h : a < b
  · simp [jsStrLt, h]
  · simp only [jsStrLt, if_neg h]
    split <;> simp [h]

theorem jsIncludes_iff (hay sub : List Char) :
    jsIncludes hay sub = true ↔ sub <:+: hay := by
  induction hay with
  | nil =>
    simp [jsIncludes, startsWith_iff, List.infix_nil]
  | cons c t ih =>
    rw [jsIncludes]
    simp only [Bool.or_eq_true, startsWith_iff, ih, List.infix_cons_iff]

theorem mem_dropWhile_of_mem (p : Char → Bool) (c : Char) (l : List Char)
    (hc : c ∈ l) (hp : p c = false) : c ∈ l.dropWhile p := by
  rw [← List.takeWhile_append_dropWhile p l] at hc
  rcases List.mem_append.mp hc with h | h
  · have := List.mem_takeWhile_imp h
    simp [hp] at this
  · exact h

theorem jsTrim_ne_nil (c : Char) (l : List Char) (hc : c ∈ l)
    (hp : isJsWhitespace c = false) : jsTrim l ≠ [] := by
  have h1 := mem_dropWhile_of_mem isJsWhitespace c l hc hp
  have h2 : c ∈ (l.dropWhile isJsWhitespace).reverse := List.mem_reverse.mpr h1
  have h3 := mem_dropWhile_of_mem isJsWhitespace c _ h2 hp
  have h4 : c ∈ jsTrim l := List.mem_reverse.mpr h3
  exact List.ne_nil_of_mem h4

theorem parseSiteName_eq_segments (s : List Char) :
    parseSiteName s = (parseSegments s).map
      fun p => ⟨jsToUpper (jsTrim p.1), jsTrim p.2⟩ := by
  simp only [parseSiteName, parseSegments]
  by_cases h1 : 2 ≤ (jsSplit " - ".data s).length
  · simp [h1]
  · by_cases h2 : 2 ≤ (jsSplit "-".data s).length <;> simp [h1, h2]

theorem generatePdfGo_le (oracle : ℕ → Except (List Char) PdfBytes) :
    ∀ (r a : ℕ) (le : Option (List Char)),
      (generatePdfGo oracle r a le).2 ≤ a + r - 1 := by
  intro r
  induction r with
  | zero =>
    intro a le
    simp [generatePdfGo]
  | succ rr ih =>
    intro a le
    rw [generatePdfGo]
    cases h : oracle a with
    | ok pdf => simp
    | error e =>
      simp only []
      have := ih (a + 1) (some e)
      omega

theorem generatePdfGo_ge (oracle : ℕ → Except (List Char) PdfBytes) :
    ∀ (r a : ℕ) (le : Option (List Char)),
      a - 1 ≤ (generatePdfGo oracle r a le).2 := by
  intro r
  induction r with
  | zero =>
    intro a le
    simp [generatePdfGo]
  | succ rr ih =>
    intro a le
    rw [generatePdfGo]
    cases h : oracle a with
    | ok pdf => simp
    | error e =>
      simp only []
      have := ih (a + 1) (some e)
      omega

theorem generatePdf_exhaust (oracle : ℕ → Except (List Char) PdfBytes)
    (e5 : List Char)
    (hall : ∀ i, 1 ≤ i → i ≤ 5 → ∃ e, oracle i = Except.error e)
    (h5 : oracle 5 = Except.error e5) :
    generatePdf oracle = (Except.error e5, 5) := by
  obtain ⟨e1, h1⟩ := hall 1 (by omega) (by omega)
  obtain ⟨e2, h2⟩ := hall 2 (by omega) (by omega)
  obtain ⟨e3, h3⟩ := hall 3 (by omega) (by omega)
  obtain ⟨e4, h4⟩ := hall 4 (by omega) (by omega)
  simp [generatePdf, MAX_PDF_RETRIES, generatePdfGo, h1, h2, h3, h4, h5]

theorem generatePdf_attempts_pos (oracle : ℕ → Except (List Char) PdfBytes) :
    1 ≤ (generatePdf oracle).2 := by
  rw [generatePdf, MAX_PDF_RETRIES, generatePdfGo]
  cases h : oracle 1 with
  | ok pdf => simp
  | error e =>
    simp only []
    have := generatePdfGo_ge oracle 4 (1 + 1) (some e)
    omega

/-! ### Claim theorems -/

/-- C3: for every string containing the spaced separator `" - "`,
`parseSiteName` applies the spaced-separator rule (first segment of the
`" - "` split, trimmed and upper-cased, as contractor; the remaining
segments rejoined with `" - "` and trimmed as project) and never the
bare-hyphen rule, even when the string also contains bare hyphens:
`"ARCO-WEST - KTEC-PHX PROJECT"` yields contractor `"ARCO-WEST"` and
project `"KTEC-PHX PROJECT"`. -/
theorem claim_C3 :
    (∀ s : List Char, " - ".data <:+: s →
      parseSiteName s = some ⟨jsToUpper (jsTrim (jsSplit " - ".data s).headI),
        jsTrim (List.intercalate " - ".data (jsSplit " - ".data s).tail)⟩) ∧
    parseSiteName "ARCO-WEST - KTEC-PHX PROJECT".data =
      some ⟨"ARCO-WEST".data, "KTEC-PHX PROJECT".data⟩ := by
  constructor
  · intro s hinf
    have h2 := jsSplit_length_two " - ".data s (by decide) hinf
    simp only [parseSiteName]
    rw [if_pos h2]
  · decide

/-- Witness for C3 at a concrete input. -/
theorem claim_C3_witness :
    parseSiteName "ARCO - KTEC PHX".data =
      some ⟨jsToUpper (jsTrim (jsSplit " - ".data "ARCO - KTEC PHX".data).headI),
        jsTrim (List.intercalate " - ".data
          (jsSplit " - ".data "ARCO - KTEC PHX".data).tail)⟩ :=
  claim_C3.1 "ARCO - KTEC PHX".data (by decide)

/-- C4: `siteNameToSharePointPath` composes root, bucket, contractor,
project and year; it returns `none` whenever the site-name parser
fails; and an omitted year argument means the current calendar year is
used. -/
theorem claim_C4 :
    siteNameToSharePointPath "ARCO - KTEC PHX".data (some 2026) 2026 =
      some "SWPPP/INSPECTIONS/PROJECTS/PROJECTS A-M/ARCO/KTEC PHX/2026".data ∧
    (∀ (s : List Char) (y : Option ℤ) (cy : ℤ), parseSiteName s = none →
      siteNameToSharePointPath s y cy = none) ∧
    (∀ (s : List Char) (cy : ℤ),
      siteNameToSharePointPath s none cy = siteNameToSharePointPath s (some cy) cy) ∧
    siteNameToSharePointPath "InvalidSiteName".data (some 2026) 2026 = none := by
  refine ⟨by decide, ?_, ?_, by decide⟩
  · intro s y cy h
    simp [siteNameToSharePointPath, h]
  · intro s cy
    cases h : parseSiteName s <;> simp [siteNameToSharePointPath, h]

/-- Witness for C4 at a concrete input. -/
theorem claim_C4_witness :
    siteNameToSharePointPath "InvalidSiteName".data (some 2030) 2030 = none :=
  claim_C4.2.1 "InvalidSiteName".data (some 2030) 2030 (by decide)

/-- C5: the bucket function is total — every contractor string maps to
exactly one of the two buckets, and it maps to `"PROJECTS A-M"` exactly
when the string is nonempty and its upper-cased first character is a
digit or a letter `A`–`M`; every other input (letters `N`–`Z`, symbols,
non-ASCII leading characters, and the empty string) maps to
`"PROJECTS N-Z"`.  Examples: `"ARCO"` and `"3411 BUILDERS"` map low,
`"ZENITH"` maps high. -/
theorem claim_C5 :
    (∀ s : List Char,
      (getProjectsFolder s = "PROJECTS A-M".data ∨
        getProjectsFolder s = "PROJECTS N-Z".data) ∧
      (getProjectsFolder s = "PROJECTS A-M".data ↔
        ∃ c rest, s = c :: rest ∧
          (('0' ≤ jsCharToUpper c ∧ jsCharToUpper c ≤ '9') ∨
           ('A' ≤ jsCharToUpper c ∧ jsCharToUpper c ≤ 'M')))) ∧
    getProjectsFolder "ARCO".data = "PROJECTS A-M".data ∧
    getProjectsFolder "3411 BUILDERS".data = "PROJECTS A-M".data ∧
    getProjectsFolder "ZENITH".data = "PROJECTS N-Z".data := by
  refine ⟨?_, by decide, by decide, by decide⟩
  intro s
  cases s with
  | nil =>
    refine ⟨Or.inr (by decide), ?_⟩
    constructor
    · intro h
      exact absurd h (by decide)
    · rintro ⟨c, rest, h, -⟩
      exact absurd h (by simp)
  | cons c rest =>
    have hunf : getProjectsFolder (c :: rest) =
        if ('0' ≤ jsCharToUpper c ∧ jsCharToUpper c ≤ '9') ∨
           ('A' ≤ jsCharToUpper c ∧ jsCharToUpper c ≤ 'M') then
          "PROJECTS A-M".data else "PROJECTS N-Z".data := by
      simp only [getProjectsFolder, jsCharAt, List.drop_zero, jsToUpper, List.map_cons,
        List.map_nil, jsStrLt_single]
      by_cases h1 : ('0' ≤ jsCharToUpper c ∧ jsCharToUpper c ≤ '9') ∨
          ('A' ≤ jsCharToUpper c ∧ jsCharToUpper c ≤ 'M')
      · rw [if_pos h1]
        rcases h1 with ⟨ha, hb⟩ | ⟨ha, hb⟩ <;>
          simp [not_lt.mpr ha, not_lt.mpr hb]
      · rw [if_neg h1]
        push_neg at h1
        obtain ⟨h2, h3⟩ := h1
        by_cases hc0 : jsCharToUpper c < '0'
        · by_cases hcA : jsCharToUpper c < 'A'
          · simp [hc0, hcA]
          · simp [hc0, not_lt.mp hcA |> h3, not_lt.mp hcA]
        · have h9 : '9' < jsCharToUpper c := h2 (not_lt.mp hc0)
          by_cases hcA : jsCharToUpper c < 'A'
          · simp [hc0, h9, hcA]
          · have hM : 'M' < jsCharToUpper c := h3 (not_lt.mp hcA)
            simp [hc0, h9, hcA, hM]
    rw [hunf]
    by_cases h : ('0' ≤ jsCharToUpper c ∧ jsCharToUpper c ≤ '9') ∨
        ('A' ≤ jsCharToUpper c ∧ jsCharToUpper c ≤ 'M')
    · rw [if_pos h]
      exact ⟨Or.inl rfl, by simp [h]⟩
    · rw [if_neg h]
      refine ⟨Or.inr rfl, ?_⟩
      constructor
      · intro hcontra
        exact absurd hcontra (by decide)
      · rintro ⟨c2, rest2, heq, hrange⟩
        obtain ⟨rfl, rfl⟩ : c2 = c ∧ rest2 = rest := by
          injection heq with h1 h2; exact ⟨h1.symm, h2.symm⟩
        exact absurd hrange h

/-- C10: the sender allow-list check is a case-insensitive substring
test, not an exact-address match: `shouldProcessEmail` accepts exactly
the strings whose lower-cased form contains `"compliancego.com"` or
`"chi@desertservices.net"` anywhere, so a hostile address such as
`"attacker@compliancego.com.evil.example"` is also accepted. -/
theorem claim_C10 :
    (∀ from_ : List Char, shouldProcessEmail from_ = true ↔
      ("compliancego.com".data <:+: jsToLower from_ ∨
       "chi@desertservices.net".data <:+: jsToLower from_)) ∧
    shouldProcessEmail "attacker@compliancego.com.evil.example".data = true := by
  constructor
  · intro f
    by_cases h : jsIncludes (jsToLower f) "compliancego.com".data = true
    · simp only [shouldProcessEmail, if_pos h]
      simp [(jsIncludes_iff (jsToLower f) "compliancego.com".data).mp h]
    · simp only [shouldProcessEmail, if_neg h]
      have hnd : ¬ ("compliancego.com".data <:+: jsToLower f) := fun hh =>
        h ((jsIncludes_iff (jsToLower f) "compliancego.com".data).mpr hh)
      have hchi : jsToLower "chi@desertservices.net".data =
        "chi@desertservices.net".data := by decide
      have hdom : jsToLower "compliancego.com".data =
        "compliancego.com".data := by decide
      simp [ALLOWED_SENDERS, hchi, hdom, jsIncludes_iff, hnd]
  · decide

/-- C6: for every attempt number `n ≥ 1` and every jitter draw in the
symmetric ±20% range, the backoff delay never exceeds the 60-second
ceiling and is non-decreasing from attempt `n` to attempt `n+1` (for
each fixed draw, hence also in expectation), and the base is 10s for
failures classified rate-limit/transient and 3s otherwise. -/
theorem claim_C6 :
    (∀ (n : ℕ) (rl : Bool) (r : ℚ), 1 ≤ n → 0 ≤ r → r ≤ 1 →
      getBackoffDelay n rl r ≤ 60000 ∧
      getBackoffDelay n rl r ≤ getBackoffDelay (n + 1) rl r) ∧
    getBackoffDelay 1 (isRateLimitError "fetch failed: 429".data) (1 / 2) = 10000 ∧
    getBackoffDelay 1 (isRateLimitError "ordinary failure".data) (1 / 2) = 3000 := by
  refine ⟨?_, ?_, ?_⟩
  · intro n rl r hn hr0 hr1
    constructor
    · exact min_le_right _ _
    · have hbpos : (0 : ℚ) < if rl then 10000 else 3000 := by
        cases rl <;> norm_num
      have hexp : (2 : ℚ) ^ (n + 1 - 1) = 2 * 2 ^ (n - 1) := by
        have he : n + 1 - 1 = (n - 1) + 1 := by omega
        rw [he, pow_succ]
        ring
      simp only [getBackoffDelay]
      apply min_le_min _ le_rfl
      rw [hexp]
      have hp : (0 : ℚ) ≤ (if rl then 10000 else 3000) * 2 ^ (n - 1) := by
        positivity
      have hf : (0 : ℚ) ≤ 1 + 2 / 10 * (r * 2 - 1) := by linarith
      nlinarith [mul_nonneg hp hf]
  · have h : isRateLimitError "fetch failed: 429".data = true := by decide
    rw [h]
    norm_num [getBackoffDelay]
  · have h : isRateLimitError "ordinary failure".data = false := by decide
    rw [h]
    norm_num [getBackoffDelay]

/-- Witness for C6 at attempt 1 with zero-centred draw. -/
theorem claim_C6_witness :
    getBackoffDelay 1 true 0 ≤ 60000 ∧
    getBackoffDelay 1 true 0 ≤ getBackoffDelay (1 + 1) true 0 :=
  claim_C6.1 1 true 0 le_rfl le_rfl (by norm_num)

/-- C7: the render step makes at most 5 attempts; when every attempt
fails, `generatePdf` terminates with exactly the error of the fifth
(final) attempt, and `processInspection` then reports a failure
notification carrying that error. -/
theorem claim_C7 :
    (∀ oracle : ℕ → Except (List Char) PdfBytes, (generatePdf oracle).2 ≤ 5) ∧
    (∀ (oracle : ℕ → Except (List Char) PdfBytes) (e5 : List Char),
      (∀ i, 1 ≤ i → i ≤ 5 → ∃ e, oracle i = Except.error e) →
      oracle 5 = Except.error e5 →
      generatePdf oracle = (Except.error e5, 5)) ∧
    (∀ (env : PipelineEnv) (insp : InspectionData) (fp : List Char) (e5 : List Char),
      siteNameToSharePointPath insp.siteName (some insp.inspectionDate.year)
        insp.inspectionDate.year = some fp →
      (∀ i, 1 ≤ i → i ≤ 5 → ∃ e, env.render i = Except.error e) →
      env.render 5 = Except.error e5 →
      (processInspection env insp).2.success = false ∧
      (processInspection env insp).2.error = some e5) := by
  refine ⟨?_, ?_, ?_⟩
  · intro oracle
    have := generatePdfGo_le oracle 5 1 none
    simpa [generatePdf, MAX_PDF_RETRIES] using this
  · intro oracle e5 hall h5
    exact generatePdf_exhaust oracle e5 hall h5
  · intro env insp fp e5 hfp hall h5
    have hg := generatePdf_exhaust env.render e5 hall h5
    simp [processInspection, hfp, hg]

/-- Witness for C7 with an always-failing render oracle. -/
theorem claim_C7_witness :
    generatePdf (fun _ => Except.error "boom".data) =
      (Except.error "boom".data, 5) :=
  claim_C7.2.1 (fun _ => Except.error "boom".data) "boom".data
    (fun _ _ _ => ⟨"boom".data, rfl⟩) rfl

/-- C1 (counterexample): the worker pipeline performs no existence
check.  With a destination folder listing that already contains the
computed filename (`"01.22.26.pdf"` for the inspection date
2026-01-22), `processInspection` still invokes the render capability
and the upload capability and ends in an uploaded outcome, not a skip:
the claim is false of the worker pipeline. -/
theorem claim_C1_counterexample :
    formatFilename ⟨2026, 0, 22, 12, 0⟩ = "01.22.26.pdf".data ∧
    (processInspection
      ⟨fun _ => Except.ok [], ⟨true, some "https://example".data, none⟩,
        ["01.22.26.pdf".data]⟩
      ⟨"ARCO - KTEC PHX".data, [], "https://example/r.html".data,
        ⟨2026, 0, 22, 12, 0⟩⟩).1 = [CapEvent.render, CapEvent.upload] ∧
    (processInspection
      ⟨fun _ => Except.ok [], ⟨true, some "https://example".data, none⟩,
        ["01.22.26.pdf".data]⟩
      ⟨"ARCO - KTEC PHX".data, [], "https://example/r.html".data,
        ⟨2026, 0, 22, 12, 0⟩⟩).2.success = true := by
  refine ⟨by decide, ?_, ?_⟩ <;> decide

/-- C1 (amended): the idempotent skip guard lives only in the
manual-upload script: when the destination listing already contains the
computed filename, the main flow of the script invokes neither render nor
upload and exits with the already-exists success outcome (and a failed
listing is treated as absent).  The worker pipeline, by contrast,
invokes the render capability whenever the path resolves, regardless of
the contents of the destination folder. -/
theorem claim_C1_amended :
    (∀ (contractor project : List Char) (now : JsDate) (files : List (List Char))
      (render : Except (List Char) PdfBytes) (upload : Except (List Char) (List Char)),
      formatFilename now ∈ files →
      manualUploadMain contractor project now (Except.ok files) render upload =
        ([], ScriptOutcome.alreadyExists)) ∧
    (∀ (env : PipelineEnv) (insp : InspectionData) (fp : List Char),
      siteNameToSharePointPath insp.siteName (some insp.inspectionDate.year)
        insp.inspectionDate.year = some fp →
      CapEvent.render ∈ (processInspection env insp).1) := by
  constructor
  · intro contractor project now files render upload hmem
    have hcontains : files.contains (formatFilename now) = true := by
      simpa [List.elem_iff] using hmem
    simp only [manualUploadMain, formatFilename] at hcontains ⊢
    rw [if_pos hcontains]
  · intro env insp fp hfp
    have hpos := generatePdf_attempts_pos env.render
    rcases hg : generatePdf env.render with ⟨res, n⟩
    rw [hg] at hpos
    have hn : n ≠ 0 := by
      simp only [] at hpos
      omega
    cases res with
    | error e =>
      have hev : (processInspection env insp).1 =
          List.replicate n CapEvent.render := by
        simp [processInspection, hfp, hg]
      rw [hev]
      exact List.mem_replicate.mpr ⟨hn, rfl⟩
    | ok pdf =>
      by_cases hu : env.upload.success = true
      · have hev : (processInspection env insp).1 =
            List.replicate n CapEvent.render ++ [CapEvent.upload] := by
          simp [processInspection, hfp, hg, hu]
        rw [hev]
        exact List.mem_append.mpr (Or.inl (List.mem_replicate.mpr ⟨hn, rfl⟩))
      · have hev : (processInspection env insp).1 =
            List.replicate n CapEvent.render ++ [CapEvent.upload] := by
          simp [processInspection, hfp, hg, hu]
        rw [hev]
        exact List.mem_append.mpr (Or.inl (List.mem_replicate.mpr ⟨hn, rfl⟩))

/-- Witness for C1 (amended) at concrete inputs. -/
theorem claim_C1_amended_witness :
    manualUploadMain "ARCO".data "KTEC PHX".data ⟨2026, 0, 22, 12, 0⟩
      (Except.ok ["01.22.26.pdf".data])
      (Except.ok []) (Except.ok "ok".data) = ([], ScriptOutcome.alreadyExists) :=
  claim_C1_amended.1 "ARCO".data "KTEC PHX".data ⟨2026, 0, 22, 12, 0⟩
    ["01.22.26.pdf".data] (Except.ok []) (Except.ok "ok".data) (by decide)

/-- C8 (counterexample): `parseSiteName` can succeed with an empty
contractor: the input `" - X"` splits on the spaced separator into an
all-whitespace first segment, so the parse succeeds with contractor
`""`, contradicting the claimed non-emptiness invariant. -/
theorem claim_C8_counterexample :
    parseSiteName " - X".data = some ⟨"".data, "X".data⟩ := by
  decide

/-- C8 (amended): a successful `parseSiteName` yields non-empty
contractor and project provided the corresponding pre-trim segments
(first split segment, and the rejoined remainder) each contain a
non-whitespace character; segments that are empty or all whitespace
produce empty fields. -/
theorem claim_C8_amended :
    ∀ (s a b : List Char), parseSegments s = some (a, b) →
      (∃ c ∈ a, isJsWhitespace c = false) →
      (∃ c ∈ b, isJsWhitespace c = false) →
      ∃ r, parseSiteName s = some r ∧ r.contractor ≠ [] ∧ r.project ≠ [] := by
  intro s a b hseg ha hb
  obtain ⟨ca, hca, hwa⟩ := ha
  obtain ⟨cb, hcb, hwb⟩ := hb
  refine ⟨⟨jsToUpper (jsTrim a), jsTrim b⟩, ?_, ?_, ?_⟩
  · rw [parseSiteName_eq_segments, hseg]
    rfl
  · have := jsTrim_ne_nil ca a hca hwa
    simpa [jsToUpper, List.map_eq_nil_iff] using this
  · exact jsTrim_ne_nil cb b hcb hwb

/-- Witness for C8 (amended) at a concrete input. -/
theorem claim_C8_amended_witness :
    ∃ r, parseSiteName "ARCO - KTEC PHX".data = some r ∧
      r.contractor ≠ [] ∧ r.project ≠ [] :=
  claim_C8_amended "ARCO - KTEC PHX".data "ARCO".data "KTEC PHX".data
    (by decide) (by decide) (by decide)

/-- C9: the extractor returns `none` exactly when a required field is
missing — when the site-name extraction comes up falsy (no match, or
empty after trimming) or when no report URL matching the vendor pattern
is found — and each required field alone is insufficient: a concrete
input with a URL but no site name fails, as does one with a site name
but no URL. -/
theorem claim_C9 :
    (∀ (html : List Char) (text : Option (List Char)) (now : JsDate),
      parseComplianceGoEmail html text now = none ↔
        (strFalsy (siteNameOf html text) = true ∨ reportUrlOf html text = none)) ∧
    parseComplianceGoEmail
      "no site field href=\"https://cdn3.compliancego.com/x.html\"".data
      none ⟨2026, 4, 15, 9, 30⟩ = none ∧
    parseComplianceGoEmail "Site/Location Name: A - B".data
      none ⟨2026, 4, 15, 9, 30⟩ = none := by
  refine ⟨?_, by decide, by decide⟩
  intro html text now
  unfold parseComplianceGoEmail
  cases hs : siteNameOf html text with
  | none => simp [strFalsy]
  | some s =>
    by_cases hse : s.isEmpty
    · simp [strFalsy, hse]
    · cases hu : reportUrlOf html text with
      | none => simp [strFalsy, hse, hu]
      | some url => simp [strFalsy, hse, hu]

/-- C2 (counterexample): the claimed fallback is wrong on both branches.
With the clock at 2026-05-15 09:30: (a) a report URL with no date token
yields `inspectionDate = new Date()` — the current date at the current
time of day (09:30), not fixed at noon; (b) a URL whose token has the
unrecognized month abbreviation `"Zzz"` yields January of the token
year at noon (2026-01-21 12:00), not the current calendar date. -/
theorem claim_C2_counterexample :
    (parseComplianceGoEmail
      "Site/Location Name: A - B\nhref=\"https://cdn3.compliancego.com/x.html\"".data
      none ⟨2026, 4, 15, 9, 30⟩ =
      some ⟨"A - B".data, [], "https://cdn3.compliancego.com/x.html".data,
        ⟨2026, 4, 15, 9, 30⟩⟩ ∧
      (⟨2026, 4, 15, 9, 30⟩ : JsDate).hour ≠ 12) ∧
    (parseComplianceGoEmail
      "Site/Location Name: A - B\nhref=\"https://cdn3.compliancego.com/IR_21Zzz26-a.html\"".data
      none ⟨2026, 4, 15, 9, 30⟩ =
      some ⟨"A - B".data, [], "https://cdn3.compliancego.com/IR_21Zzz26-a.html".data,
        ⟨2026, 0, 21, 12, 0⟩⟩ ∧
      (⟨2026, 0, 21, 12, 0⟩ : JsDate) ≠ ⟨2026, 4, 15, 12, 0⟩) := by
  exact ⟨⟨by decide, by decide⟩, ⟨by decide, by decide⟩⟩

/-- C2 (amended): extraction never fails for a missing or unrecognized
date token, but the fallbacks are: an absent token yields the
extraction-time clock value unchanged (current date *and* current time
of day, not forced to noon), while a present token with an unrecognized
month abbreviation yields the token day and year with the month
defaulted to January (index 0) at noon — not the current date. -/
theorem claim_C2_amended :
    ∀ (html : List Char) (text : Option (List Char)) (now : JsDate)
      (rec : InspectionData),
      parseComplianceGoEmail html text now = some rec →
      (scanFirst tryDateToken rec.reportUrl = none → rec.inspectionDate = now) ∧
      (∀ (d : ℕ) (m : List Char) (y : ℕ),
        scanFirst tryDateToken rec.reportUrl = some (d, m, y) →
        monthMap m = none →
        rec.inspectionDate = jsMkDate (2000 + (y : ℤ)) 0 (d : ℤ) 12 0) := by
  intro html text now rec hp
  unfold parseComplianceGoEmail at hp
  split at hp
  · exact absurd hp (by simp)
  · split at hp
    · exact absurd hp (by simp)
    · split at hp
      · exact absurd hp (by simp)
      · have hrec := (Option.some.inj hp).symm
        subst hrec
        constructor
        · intro htok
          simp only [inspectionDateOf] at htok ⊢
          rw [htok]
        · intro d m y htok hmm
          simp only [inspectionDateOf] at htok ⊢
          rw [htok]
          simp [hmm]

/-- Witness for C2 (amended) at a concrete input with no date token. -/
theorem claim_C2_amended_witness :
    (⟨"A - B".data, [], "https://cdn3.compliancego.com/x.html".data,
      ⟨2026, 4, 15, 9, 30⟩⟩ : InspectionData).inspectionDate =
      ⟨2026, 4, 15, 9, 30⟩ :=
  (claim_C2_amended
    "Site/Location Name: A - B\nhref=\"https://cdn3.compliancego.com/x.html\"".data
    none ⟨2026, 4, 15, 9, 30⟩
    ⟨"A - B".data, [], "https://cdn3.compliancego.com/x.html".data,
      ⟨2026, 4, 15, 9, 30⟩⟩
    (by decide)).1 (by decide)

end DSIE
